import Mathlib

/-!
Shallow embedding of the mess-attendance web application
(upload-attendance, query-attendance, delete-attendance routes).

Cells of a spreadsheet are modelled as a grid `List (List String)`
(the output of the tabular reader, which renders missing cells as "").
JavaScript `parseInt(s, 10)` / `parseFloat(s)` are modelled as
`jsParseInt` / `jsParseFloat` returning `none` for NaN; `parseFloat`
is modelled on sign/digits/fraction prefixes (the exponent form and
"Infinity", never produced by the spreadsheets at hand, are not
modelled).  SQL NUMERIC amounts are modelled as `Rat`, timestamps as
`Int`.  The persisted table is a `List AttendanceRecord`; the `id`
SERIAL column plays no role in any property and is omitted.
-/

/-- JavaScript `s.trim()` modelled on the character list of the string
(drop whitespace from both ends). -/
def strTrim (s : String) : String :=
  ⟨((s.data.dropWhile Char.isWhitespace).reverse.dropWhile Char.isWhitespace).reverse⟩

/-- JavaScript `s.toLowerCase()` modelled as a character-wise map. -/
def strLower (s : String) : String := ⟨s.data.map Char.toLower⟩

/-- JavaScript `s.toUpperCase()` modelled as a character-wise map. -/
def strUpper (s : String) : String := ⟨s.data.map Char.toUpper⟩

/-- Trim then lowercase a cell, as the routes' repeated
`String(c || "").trim().toLowerCase()` idiom does. -/
def normCell (s : String) : String := strLower (strTrim s)

/-- JavaScript truthiness of a nullable string request parameter:
`null` and the empty string are falsy. -/
def jsTruthy : Option String → Bool
  | none => false
  | some s => !(s == "")

/-- Value of a list of decimal digit characters. -/
def digitsToNat (ds : List Char) : Nat :=
  ds.foldl (fun a c => a * 10 + (c.toNat - 48)) 0

/-- Longest decimal-digit prefix as a signed integer; `none` when the
prefix is empty (JavaScript `NaN`). -/
def parseDigitsSigned (sign : Int) (t : List Char) : Option Int :=
  let ds := t.takeWhile Char.isDigit
  if ds.isEmpty then none else some (sign * (digitsToNat ds : Int))

/-- JavaScript `Number.parseInt(s, 10)`: skip leading whitespace, read an
optional sign and then the longest digit prefix; `none` models NaN. -/
def jsParseInt (s : String) : Option Int :=
  match s.data.dropWhile Char.isWhitespace with
  | '-' :: t => parseDigitsSigned (-1) t
  | '+' :: t => parseDigitsSigned 1 t
  | t => parseDigitsSigned 1 t

/-- Digits, optional dot, digits — the decimal prefix read by
JavaScript `Number.parseFloat`; `none` when no digit occurs at all. -/
def parseFloatBody (sign : Rat) (t : List Char) : Option Rat :=
  let ipart := t.takeWhile Char.isDigit
  let rest := t.drop ipart.length
  let fpart := match rest with
    | '.' :: u => u.takeWhile Char.isDigit
    | _ => []
  if ipart.isEmpty && fpart.isEmpty then none
  else some (sign * ((digitsToNat ipart : Rat) +
    (digitsToNat fpart : Rat) / (10 : Rat) ^ fpart.length))

/-- JavaScript `Number.parseFloat(s)` on sign/digits/fraction prefixes;
`none` models NaN. -/
def jsParseFloat (s : String) : Option Rat :=
  match s.data.dropWhile Char.isWhitespace with
  | '-' :: t => parseFloatBody (-1) t
  | '+' :: t => parseFloatBody 1 t
  | t => parseFloatBody 1 t

/-- The `String(cell || "0")` idiom: an empty (falsy) cell is replaced
by the given default string. -/
def jsOr (s d : String) : String := if s == "" then d else s

/-! ### Metadata extraction (upload route, STEP 1)

The route scans at most the first 100 rows; within a row it walks the
cells left to right, and on an exact (trimmed, lowercased) "month" /
"month:" label takes the trimmed first non-empty cell to the right,
respectively on a "year" / "year:" label the first cell to the right
whose trimmed text `parseInt`s.  Each label is recorded at most once
(`foundMonth` / `foundYear` guards); both loops break once both labels
were found, which cannot change the final state because of the guards
and is modelled as an early return. -/

/-- The mutable `month`/`year`/`foundMonth`/`foundYear` locals of STEP 1. -/
structure MetaState where
  month : String
  year : Int
  foundMonth : Bool
  foundYear : Bool
deriving DecidableEq

/-- Exact match for the month label cell. -/
def isMonthLabel (c : String) : Bool :=
  normCell c == "month" || normCell c == "month:"

/-- Exact match for the year label cell. -/
def isYearLabel (c : String) : Bool :=
  normCell c == "year" || normCell c == "year:"

/-- Trimmed text of the first cell with non-empty trim, the month
value scan to the right of a month label. -/
def firstNonEmptyTrim (cs : List String) : Option String :=
  (cs.find? (fun c => !(strTrim c == ""))).map strTrim

/-- First cell to the right whose trimmed text parses as a base-10
integer, the year value scan. -/
def firstParsedInt (cs : List String) : Option Int :=
  cs.findSome? (fun c => jsParseInt (strTrim c))

/-- Month part of one cell step of STEP 1: on an unseen month label,
take the first non-empty cell to the right, if any. -/
def monthStep (c : String) (rest : List String) (st : MetaState) : MetaState :=
  if !st.foundMonth && isMonthLabel c then
    match firstNonEmptyTrim rest with
    | some v => { st with month := v, foundMonth := true }
    | none => st
  else st

/-- Year part of one cell step of STEP 1: on an unseen year label,
take the first integer-parsing cell to the right, if any. -/
def yearStep (c : String) (rest : List String) (st : MetaState) : MetaState :=
  if !st.foundYear && isYearLabel c then
    match firstParsedInt rest with
    | some n => { st with year := n, foundYear := true }
    | none => st
  else st

/-- Inner cell loop of STEP 1 over one row: the month update followed
by the year update on each cell (the source's `st1`/`st2`), breaking
once both labels are found. -/
def scanCellsMeta : List String → MetaState → MetaState
  | [], st => st
  | c :: rest, st =>
    if st.foundMonth && st.foundYear then st
    else scanCellsMeta rest (yearStep c rest (monthStep c rest st))

/-- Outer row loop of STEP 1. -/
def scanRowsMeta : List (List String) → MetaState → MetaState
  | [], st => st
  | row :: rest, st =>
    if st.foundMonth && st.foundYear then st
    else scanRowsMeta rest (scanCellsMeta row st)

/-- STEP 1 of the upload route: extract the month label and the year,
scanning at most the first 100 rows, with defaults "Unknown" and the
current calendar year. -/
def extractMeta (grid : List (List String)) (currentYear : Int) : String × Int :=
  let st := scanRowsMeta (grid.take 100)
    { month := "Unknown", year := currentYear, foundMonth := false, foundYear := false }
  (st.month, st.year)

/-- In-row result of the month label scan: the value attached to the
first month label that has a non-empty cell to its right (a label with
only empty cells to its right leaves the scan active). -/
def rowMonthHit : List String → Option String
  | [] => none
  | c :: rest =>
    if isMonthLabel c then
      match firstNonEmptyTrim rest with
      | some v => some v
      | none => rowMonthHit rest
    else rowMonthHit rest

/-- In-row result of the year label scan. -/
def rowYearHit : List String → Option Int
  | [] => none
  | c :: rest =>
    if isYearLabel c then
      match firstParsedInt rest with
      | some n => some n
      | none => rowYearHit rest
    else rowYearHit rest

/-- First in-grid month hit, row-major. -/
def gridMonthHit : List (List String) → Option String
  | [] => none
  | row :: rest =>
    match rowMonthHit row with
    | some v => some v
    | none => gridMonthHit rest

/-- First in-grid year hit, row-major. -/
def gridYearHit : List (List String) → Option Int
  | [] => none
  | row :: rest =>
    match rowYearHit row with
    | some n => some n
    | none => gridYearHit rest

/-! ### Header locator and column resolution (upload route, STEPs 2-3) -/

/-- A row qualifies as the student header row when it contains both
"student name" and "roll no." cells (old layout) or both "name" and
"enrollment no" cells (new layout), compared exactly after trimming
and lowercasing. -/
def isHeaderRow (row : List String) : Bool :=
  (row.any (fun c => normCell c == "student name") &&
   row.any (fun c => normCell c == "roll no.")) ||
  (row.any (fun c => normCell c == "name") &&
   row.any (fun c => normCell c == "enrollment no"))

/-- STEP 2 loop: index of the first row qualifying as header row,
`none` for the route's `headerRowIndex === -1` error case. -/
def findHeaderRowIndex : List (List String) → Option Nat
  | [] => none
  | row :: rest =>
    if isHeaderRow row then some 0
    else (findHeaderRowIndex rest).map (· + 1)

/-- Header cell naming the student-name column. -/
def isNameHeaderCell (c : String) : Bool :=
  normCell c == "student name" || normCell c == "name"

/-- Header cell naming the roll-number column. -/
def isRollHeaderCell (c : String) : Bool :=
  normCell c == "roll no." || normCell c == "enrollment no"

/-- Exact-match total-amount cell (the canonical, whole-grid variant). -/
def isTotalAmountCellExact (c : String) : Bool :=
  normCell c == "total amount"

/-- STEP 3(e) of the canonical (Postgres) upload route: scan the whole
grid, row-major, for a cell whose trimmed lowercased text is exactly
"total amount"; the result is that cell's column index. -/
def findTotalAmountCol : List (List String) → Option Nat
  | [] => none
  | row :: rest =>
    match row.findIdx? isTotalAmountCellExact with
    | some j => some j
    | none => findTotalAmountCol rest

/-- Substring test `hay.includes(needle)` on the character lists. -/
def strContains (hay needle : String) : Bool :=
  hay.data.tails.any (fun t => needle.data.isPrefixOf t)

/-- STEP 3 of the earlier (SQLite) upload route variant: the
total-amount column is searched in the header row only, by substring
(`txt.includes("total amount")`). -/
def findTotalAmountColHeaderSub (headerRow : List String) : Option Nat :=
  headerRow.findIdx? (fun c => strContains (normCell c) "total amount")

/-! ### Row normalizer (upload route, STEP 4) -/

/-- The transient per-student values built by the data-row loop. -/
structure ParsedRow where
  roll_no : String
  student_name : String
  days_present : Int
  total_amount : Rat
deriving DecidableEq

/-- Body of the STEP 4 data-row loop: skip rows shorter than the
largest required column index, skip rows whose trimmed name or roll
cell is empty, otherwise uppercase name and roll and read the present
and total cells through `parseInt` / `parseFloat` with `|| 0`
defaulting. -/
def normalizeRow (nameCol rollCol presentCol totalCol : Nat)
    (row : List String) : Option ParsedRow :=
  let maxIdx := max (max nameCol rollCol) (max presentCol totalCol)
  if row.length ≤ maxIdx then none
  else
    let studentName := strTrim (row.getD nameCol "")
    let rollNo := strTrim (row.getD rollCol "")
    if studentName == "" || rollNo == "" then none
    else some {
      roll_no := strUpper rollNo,
      student_name := strUpper studentName,
      days_present := (jsParseInt (jsOr (row.getD presentCol "") "0")).getD 0,
      total_amount := (jsParseFloat (jsOr (row.getD totalCol "") "0")).getD 0 }

/-- Errors surfaced by the upload pipeline once a grid is in hand. -/
inductive UploadError
  | formatError
  | headerNotFound
  | missingColumn
deriving DecidableEq

/-- The canonical upload pipeline on a parsed grid: the too-short-grid
check, metadata extraction, header location, column resolution and the
data-row loop, returning detected month, year and the normalized rows
in sheet order. -/
def processSheet (grid : List (List String)) (currentYear : Int) :
    Except UploadError (String × Int × List ParsedRow) :=
  if grid.length < 2 then .error .formatError
  else
    let meta := extractMeta grid currentYear
    match findHeaderRowIndex grid with
    | none => .error .headerNotFound
    | some h =>
      let headerRow := grid.getD h []
      let nextHeaderRow := grid.getD (h+1) []
      match headerRow.findIdx? isNameHeaderCell,
            headerRow.findIdx? isRollHeaderCell,
            nextHeaderRow.findIdx? (fun c => normCell c == "p"),
            nextHeaderRow.findIdx? (fun c => normCell c == "a"),
            findTotalAmountCol grid with
      | some nameCol, some rollCol, some presentCol, some _absentCol, some totalCol =>
        .ok (meta.1, meta.2,
          (grid.drop (h+2)).filterMap (normalizeRow nameCol rollCol presentCol totalCol))
      | _, _, _, _, _ => .error .missingColumn

/-! ### Persistence (attendance table, upsert sink)

The canonical `createTableSQL` has columns roll_no, student_name,
month, year, days_present, total_amount, created_at and the constraint
`UNIQUE (roll_no, month, year)`.  The query and delete routes also
read a `mess` column of the deployed table (absent from the upload
route's column list, hence `none` for rows it writes); it is carried
as `Option String`.  The `id` SERIAL column decides nothing and is
omitted.  `created_at TIMESTAMPTZ DEFAULT now()` is an `Int` set from
a `now` parameter at insert time. -/

/-- One row of the `attendance` table. -/
structure AttendanceRecord where
  roll_no : String
  student_name : String
  month : String
  year : Int
  mess : Option String
  days_present : Int
  total_amount : Rat
  created_at : Int
deriving DecidableEq

/-- The six column values bound by the upload routes' write statement. -/
structure NewRow where
  roll_no : String
  student_name : String
  month : String
  year : Int
  days_present : Int
  total_amount : Rat
deriving DecidableEq

/-- The natural-key columns of a stored record. -/
def recKey (r : AttendanceRecord) : String × String × Int :=
  (r.roll_no, r.month, r.year)

/-- The natural-key columns of an incoming row. -/
def newKey (n : NewRow) : String × String × Int :=
  (n.roll_no, n.month, n.year)

/-- Does a stored record collide with an incoming row on the
`UNIQUE (roll_no, month, year)` constraint? -/
def keyMatch (r : AttendanceRecord) (n : NewRow) : Bool :=
  r.roll_no == n.roll_no && r.month == n.month && r.year == n.year

/-- The `DO UPDATE SET` clause of `upsertSQL`: overwrite student_name,
days_present and total_amount, leaving every other column alone. -/
def applyUpdate (n : NewRow) (r : AttendanceRecord) : AttendanceRecord :=
  { r with student_name := n.student_name,
           days_present := n.days_present,
           total_amount := n.total_amount }

/-- A fresh row as inserted by either write statement: `mess` is not in
the column list (NULL) and created_at takes its default, the current
time. -/
def freshRecord (now : Int) (n : NewRow) : AttendanceRecord :=
  { roll_no := n.roll_no, student_name := n.student_name, month := n.month,
    year := n.year, mess := none, days_present := n.days_present,
    total_amount := n.total_amount, created_at := now }

/-- The canonical `upsertSQL`: `INSERT ... ON CONFLICT (roll_no, month,
year) DO UPDATE SET student_name, days_present, total_amount`. -/
def upsert (now : Int) (db : List AttendanceRecord) (n : NewRow) :
    List AttendanceRecord :=
  if db.any (fun r => keyMatch r n) then
    db.map (fun r => if keyMatch r n then applyUpdate n r else r)
  else
    db ++ [freshRecord now n]

/-- The SQLite variant's `insertStmt`: `INSERT OR REPLACE` deletes any
row colliding on the unique key and inserts a fresh row, whose
created_at takes the current default. -/
def insertOrReplace (now : Int) (db : List AttendanceRecord) (n : NewRow) :
    List AttendanceRecord :=
  db.filter (fun r => !(keyMatch r n)) ++ [freshRecord now n]

/-- Whole upload write path: run the pipeline on the grid; an error
persists nothing, a success upserts each normalized row in order. -/
def persistUpload (now : Int) (db : List AttendanceRecord)
    (grid : List (List String)) (currentYear : Int) : List AttendanceRecord :=
  match processSheet grid currentYear with
  | .error _ => db
  | .ok (m, yr, rows) =>
    rows.foldl (fun d pr => upsert now d
      { roll_no := pr.roll_no, student_name := pr.student_name, month := m,
        year := yr, days_present := pr.days_present,
        total_amount := pr.total_amount }) db

/-! ### Query aggregator (query-attendance route with year/mess filters) -/

/-- Errors of the query route. -/
inductive QueryError
  | inputMissing
  | invalidYear
  | notFound
deriving DecidableEq

/-- The JSON payload of a successful query. -/
structure QueryResponse where
  roll_no : Option String
  student_name : String
  total_days_present : Int
  total_amount : Rat
  months_data : List AttendanceRecord
deriving DecidableEq

/-- Roll-number criterion: present iff the parameter is truthy, and
then uppercased before matching. -/
def rollFilter (rollNo : Option String) : Option String :=
  if jsTruthy rollNo then some (strUpper (rollNo.getD "")) else none

/-- Mess criterion: present iff the parameter is truthy. -/
def messFilter (mess : Option String) : Option String :=
  if jsTruthy mess then mess else none

/-- Year criterion: a truthy year parameter must `parseInt`, else the
route answers "Invalid year provided". -/
def queryYearParsed (queryYear : Option String) : Except QueryError (Option Int) :=
  if jsTruthy queryYear then
    match jsParseInt (queryYear.getD "") with
    | none => .error .invalidYear
    | some n => .ok (some n)
  else .ok none

/-- Conjunction of the WHERE conditions the route pushes for the
criteria that are present (`mess = $i` on a NULL mess is not a match,
as in SQL). -/
def recordMatches (rollU : Option String) (yr : Option Int)
    (messC : Option String) (r : AttendanceRecord) : Bool :=
  (match rollU with | some s => r.roll_no == s | none => true) &&
  (match yr with | some n => r.year == n | none => true) &&
  (match messC with | some m => r.mess == some m | none => true)

/-- The `ORDER BY year DESC, month DESC` order: later years first, and
inside a year the lexicographically larger month text first. -/
def qOrder (a b : AttendanceRecord) : Prop :=
  b.year < a.year ∨ (a.year = b.year ∧ (b.month < a.month ∨ b.month = a.month))

instance : DecidableRel qOrder := fun a b => by
  unfold qOrder
  infer_instance

/-- Result-set ordering of the query route. -/
def sortRecords (l : List AttendanceRecord) : List AttendanceRecord :=
  List.insertionSort qOrder l

/-- The query route on the stored table: requires a roll number or a
year, parses the year, filters, orders, and reports the first record's
student name together with the summed days and amounts. -/
def queryAttendance (db : List AttendanceRecord)
    (rollNo queryYear mess : Option String) : Except QueryError QueryResponse :=
  if !(jsTruthy rollNo) && !(jsTruthy queryYear) then .error .inputMissing
  else
    match queryYearParsed queryYear with
    | .error e => .error e
    | .ok yr =>
      let matched := db.filter (recordMatches (rollFilter rollNo) yr (messFilter mess))
      let records := sortRecords matched
      match records with
      | [] => .error .notFound
      | r0 :: _ =>
        .ok { roll_no := rollFilter rollNo,
              student_name := r0.student_name,
              total_days_present := (records.map (fun r => r.days_present)).sum,
              total_amount := (records.map (fun r => r.total_amount)).sum,
              months_data := records }

/-! ### Delete route (delete-attendance, month/year/mess variant) -/

/-- Errors of the delete route. -/
inductive DeleteError
  | inputMissing
  | notFound
deriving DecidableEq

/-- WHERE clause of the delete statement. -/
def delMatch (month : String) (year : Int) (mess : String)
    (r : AttendanceRecord) : Bool :=
  r.month == month && r.year == year && r.mess == some mess

/-- The delete route: requires truthy month, year and mess, deletes
every matching row, answers the deleted count when positive and a 404
otherwise.  Result: response paired with the table afterwards. -/
def deleteAttendance (db : List AttendanceRecord) (month : String)
    (year : Int) (mess : String) : Except DeleteError Nat × List AttendanceRecord :=
  if month == "" || year == 0 || mess == "" then (.error .inputMissing, db)
  else
    let remaining := db.filter (fun r => !(delMatch month year mess r))
    let cnt := (db.filter (delMatch month year mess)).length
    if 0 < cnt then (.ok cnt, remaining) else (.error .notFound, remaining)

/-- The invariant enforced by `UNIQUE (roll_no, month, year)`: no two
stored rows share the natural key. -/
def uniqueKeys (db : List AttendanceRecord) : Prop :=
  db.Pairwise (fun a b => recKey a ≠ recKey b)

/-! ### Concrete fixtures used by witnesses and counterexamples -/

/-- A stored row created at time 0. -/
def c3rec : AttendanceRecord :=
  { roll_no := "R1", student_name := "A", month := "JAN", year := 2024,
    mess := none, days_present := 1, total_amount := 10, created_at := 0 }

/-- A re-upload of the same (roll_no, month, year) key with changed values. -/
def c3new : NewRow :=
  { roll_no := "R1", student_name := "B", month := "JAN", year := 2024,
    days_present := 2, total_amount := 20 }

/-- First stored January 2024 row of mess "A". -/
def c9r1 : AttendanceRecord :=
  { roll_no := "R1", student_name := "A", month := "JAN", year := 2024,
    mess := some "A", days_present := 3, total_amount := 30, created_at := 0 }

/-- Second stored January 2024 row of mess "A". -/
def c9r2 : AttendanceRecord :=
  { roll_no := "R2", student_name := "B", month := "JAN", year := 2024,
    mess := some "A", days_present := 4, total_amount := 40, created_at := 0 }

/-- Stored row of another month, untouched by the January delete. -/
def c9r3 : AttendanceRecord :=
  { roll_no := "R3", student_name := "C", month := "FEB", year := 2024,
    mess := some "A", days_present := 5, total_amount := 50, created_at := 0 }

/-- First upload of key (R9, MAY, 2023). -/
def c1n1 : NewRow :=
  { roll_no := "R9", student_name := "OLD", month := "MAY", year := 2023,
    days_present := 10, total_amount := 100 }

/-- Second upload of the same key with changed values. -/
def c1n2 : NewRow :=
  { roll_no := "R9", student_name := "NEW", month := "MAY", year := 2023,
    days_present := 12, total_amount := 120 }

/-- A two-row grid in which no row qualifies as a header row. -/
def g5 : List (List String) := [["a", "b"], ["c", "d"]]

/-- A grid whose header row is the second row. -/
def g5h : List (List String) := [["x"], ["Name", "Enrollment No"]]

/-- A grid whose only total-amount-like cell is "Total Amounts" in a
data row: it contains the substring "total amount" but is not exactly
equal to it. -/
def c2grid : List (List String) :=
  [["Name", "Enrollment No"], ["", "P", "A"], ["x", "Total Amounts", "5"]]

/-- A grid whose (exact) "Total Amount" cell sits only in a data row,
outside the header row and the sub-header row. -/
def c2wgrid : List (List String) :=
  [["Name", "Enrollment No"], ["", "P", "A"], ["r1", "n1", "Total Amount"]]

/-- A well-formed sheet whose only data row holds "-5" under the "P"
column. -/
def g7 : List (List String) :=
  [["Name", "Enrollment No", "", ""],
   ["", "", "P", "A", "Total Amount"],
   ["John", "R1", "-5", "x", "100"]]

/-- A grid with a month label whose value cell sits two cells to the
right, and a year label followed by an unparseable cell only. -/
def g4a : List (List String) := [["Month", "", " January "], ["Year", "abc"]]

/-- A grid with no month label at all. -/
def g4b : List (List String) := [["x", "y"], ["z"]]

/-- A stored January 2024 row of student ALICE. -/
def qrecA : AttendanceRecord :=
  { roll_no := "R1", student_name := "ALICE", month := "January", year := 2024,
    mess := none, days_present := 10, total_amount := 100, created_at := 0 }

/-- A stored March 2024 row of a different student, BOB. -/
def qrecB : AttendanceRecord :=
  { roll_no := "R2", student_name := "BOB", month := "March", year := 2024,
    mess := none, days_present := 15, total_amount := 200, created_at := 0 }

/-- The response of the year-only query over the two rows above:
ordered (2024, "March") before (2024, "January"), a single student's
name, totals summed across both students. -/
def qresp0 : QueryResponse :=
  { roll_no := none, student_name := "BOB", total_days_present := 25,
    total_amount := 300, months_data := [qrecB, qrecA] }

/-- The spec's example data row: mixed-case name and roll with
surrounding whitespace. -/
def row6 : List String := ["  jane doe ", " lit2024042 ", "20", "3", "2500"]

/-- The normalized row the pipeline stores for `row6`. -/
def pr6 : ParsedRow :=
  { roll_no := "LIT2024042", student_name := "JANE DOE",
    days_present := 20, total_amount := 2500 }

/-- Response of the roll-number query "r1" over the single ALICE row. -/
def qresp1 : QueryResponse :=
  { roll_no := some "R1", student_name := "ALICE", total_days_present := 10,
    total_amount := 100, months_data := [qrecA] }

/-! ### Theorems -/

theorem keyMatch_iff {r : AttendanceRecord} {n : NewRow} :
    keyMatch r n = true ↔ recKey r = newKey n := by
  simp [keyMatch, recKey, newKey, Prod.ext_iff, and_assoc]

theorem keyMatch_applyUpdate (n m : NewRow) (r : AttendanceRecord) :
    keyMatch (applyUpdate n r) m = keyMatch r m := rfl

theorem keyMatch_condUpdate (n m : NewRow) (r : AttendanceRecord) :
    keyMatch (if keyMatch r n then applyUpdate n r else r) m = keyMatch r m := by
  split <;> rfl

theorem recKey_condUpdate (n : NewRow) (r : AttendanceRecord) :
    recKey (if keyMatch r n then applyUpdate n r else r) = recKey r := by
  split <;> rfl

/-- C3 (amended): the canonical `ON CONFLICT ... DO UPDATE` upsert that
hits an existing (roll_no, month, year) key rewrites exactly the
colliding rows in place: the table becomes a pointwise map, the updated
row keeps its roll_no, month, year, mess and — decisively — its
created_at, while student_name, days_present and total_amount take the
incoming values.  (The SQLite `INSERT OR REPLACE` variant does not share
this property; see the counterexample.) -/
theorem upsert_preserves_created_at (now : Int) (db : List AttendanceRecord)
    (n : NewRow) (r : AttendanceRecord) (hr : r ∈ db) (hk : keyMatch r n = true) :
    upsert now db n = db.map (fun x => if keyMatch x n then applyUpdate n x else x)
    ∧ applyUpdate n r ∈ upsert now db n
    ∧ (applyUpdate n r).created_at = r.created_at
    ∧ (applyUpdate n r).roll_no = r.roll_no
    ∧ (applyUpdate n r).month = r.month
    ∧ (applyUpdate n r).year = r.year
    ∧ (applyUpdate n r).mess = r.mess
    ∧ (applyUpdate n r).student_name = n.student_name
    ∧ (applyUpdate n r).days_present = n.days_present
    ∧ (applyUpdate n r).total_amount = n.total_amount := by
  have hany : db.any (fun x => keyMatch x n) = true := List.any_eq_true.mpr ⟨r, hr, hk⟩
  have hform : upsert now db n
      = db.map (fun x => if keyMatch x n then applyUpdate n x else x) := by
    simp [upsert, hany]
  refine ⟨hform, ?_, rfl, rfl, rfl, rfl, rfl, rfl, rfl, rfl⟩
  rw [hform]
  have : applyUpdate n r = (fun x => if keyMatch x n then applyUpdate n x else x) r := by
    simp [hk]
  rw [this]
  exact List.mem_map_of_mem _ hr

/-- C3 witness: a concrete collision run through the theorem. -/
theorem upsert_preserves_created_at_witness :
    (applyUpdate c3new c3rec).created_at = c3rec.created_at
    ∧ (applyUpdate c3new c3rec).student_name = c3new.student_name
    ∧ applyUpdate c3new c3rec ∈ upsert 7 [c3rec] c3new := by
  have h := upsert_preserves_created_at 7 [c3rec] c3new c3rec
    (List.mem_singleton.mpr rfl) (by decide)
  exact ⟨h.2.2.1, h.2.2.2.2.2.2.2.1, h.2.1⟩

/-- C3 counterexample: the SQLite variant's `INSERT OR REPLACE` write
statement, on the same key collision, replaces the whole row, so the
stored created_at becomes the time of the second write (5) instead of
the first insert's (0) — the claim is false for that cited write path. -/
theorem insertOrReplace_resets_created_at :
    keyMatch c3rec c3new = true
    ∧ c3rec.created_at = 0
    ∧ (insertOrReplace 5 [c3rec] c3new).map (fun r => r.created_at) = [5]
    ∧ (0 : Int) ≠ 5 := by
  refine ⟨by decide, rfl, ?_, by decide⟩
  simp +decide [insertOrReplace, freshRecord, keyMatch, c3rec, c3new]

/-- C9: the delete route on a truthy (month, year, mess) triple: with
zero matching rows it answers NotFound and leaves the table unchanged;
with n > 0 matching rows it removes exactly the matching rows (the
remainder together with the removed rows is a permutation of the old
table) and reports the count n. -/
theorem delete_by_sheet_spec (db : List AttendanceRecord) (month : String)
    (year : Int) (mess : String)
    (hm : month ≠ "") (hy : year ≠ 0) (hs : mess ≠ "") :
    ((db.filter (delMatch month year mess)).length = 0 →
      deleteAttendance db month year mess = (.error .notFound, db))
    ∧ (∀ n, (db.filter (delMatch month year mess)).length = n → 0 < n →
      deleteAttendance db month year mess =
        (.ok n, db.filter (fun r => !(delMatch month year mess r)))
      ∧ (db.filter (delMatch month year mess) ++
          db.filter (fun r => !(delMatch month year mess r))).Perm db) := by
  have hcond : (month == "" || year == 0 || mess == "") = false := by
    simp [beq_eq_false_iff_ne, hm, hy, hs]
  constructor
  · intro h0
    have hnil : db.filter (delMatch month year mess) = [] :=
      List.length_eq_zero.mp h0
    have hall : ∀ r ∈ db, (!(delMatch month year mess r)) = true := by
      intro r hr
      have := List.filter_eq_nil_iff.mp hnil r hr
      simp [this]
    have hself : db.filter (fun r => !(delMatch month year mess r)) = db :=
      List.filter_eq_self.mpr hall
    simp [deleteAttendance, hcond, hnil, hself]
  · intro n hn hpos
    refine ⟨?_, List.filter_append_perm _ db⟩
    simp [deleteAttendance, hcond, hn, hpos]

/-- C9 witness: deleting (JAN, 2024, A) removes the two matching rows
and reports 2; deleting the absent (MAR, 2024, A) is a NotFound with
the table unchanged. -/
theorem delete_by_sheet_witness :
    (deleteAttendance [c9r1, c9r2, c9r3] "JAN" 2024 "A").1 = .ok 2
    ∧ deleteAttendance [c9r1, c9r2, c9r3] "MAR" 2024 "A"
        = (.error .notFound, [c9r1, c9r2, c9r3]) := by
  constructor
  · have h := (delete_by_sheet_spec [c9r1, c9r2, c9r3] "JAN" 2024 "A"
      (by decide) (by decide) (by decide)).2 2 (by decide) (by decide)
    rw [h.1]
  · exact (delete_by_sheet_spec [c9r1, c9r2, c9r3] "MAR" 2024 "A"
      (by decide) (by decide) (by decide)).1 (by decide)

theorem keyMatch_fresh (now : Int) (n : NewRow) :
    keyMatch (freshRecord now n) n = true := by
  simp [keyMatch, freshRecord]

theorem filter_keyMatch_length_one {db : List AttendanceRecord} {n : NewRow}
    (hu : uniqueKeys db) (hany : db.any (fun r => keyMatch r n) = true) :
    (db.filter (fun r => keyMatch r n)).length = 1 := by
  induction db with
  | nil => simp at hany
  | cons r t ih =>
    have hu' := List.pairwise_cons.mp hu
    by_cases hr : keyMatch r n = true
    · have htnil : t.filter (fun x => keyMatch x n) = [] := by
        apply List.filter_eq_nil_iff.mpr
        intro b hb hbk
        exact hu'.1 b hb (keyMatch_iff.mp hr ▸ (keyMatch_iff.mp hbk).symm ▸ rfl)
      simp [List.filter_cons, hr, htnil]
    · have hany' : t.any (fun x => keyMatch x n) = true := by
        simp only [List.any_cons, hr, Bool.false_or] at hany
        exact hany
      simpa [List.filter_cons, hr] using ih hu'.2 hany'

theorem upsert_uniqueKeys (now : Int) (db : List AttendanceRecord) (n : NewRow)
    (hu : uniqueKeys db) : uniqueKeys (upsert now db n) := by
  by_cases hany : db.any (fun r => keyMatch r n) = true
  · rw [upsert, if_pos hany]
    exact List.pairwise_map.mpr (hu.imp (fun h => by
      rwa [recKey_condUpdate, recKey_condUpdate]))
  · rw [upsert, if_neg hany]
    refine List.pairwise_append.mpr ⟨hu, by simp, ?_⟩
    intro a ha b hb
    have hb' : b = freshRecord now n := by simpa using hb
    subst hb'
    have hna : keyMatch a n ≠ true := by
      intro hk
      exact hany (List.any_eq_true.mpr ⟨a, ha, hk⟩)
    intro he
    exact hna (keyMatch_iff.mpr he)

theorem filter_condUpdate_map (db : List AttendanceRecord) (n : NewRow) :
    ((db.map (fun r => if keyMatch r n then applyUpdate n r else r)).filter
        (fun r => keyMatch r n))
      = (db.filter (fun r => keyMatch r n)).map (fun r => applyUpdate n r) := by
  induction db with
  | nil => rfl
  | cons r t ih =>
    by_cases hr : keyMatch r n = true
    · simp [List.filter_cons, keyMatch_condUpdate, keyMatch_applyUpdate, hr, ih]
    · simp [List.filter_cons, keyMatch_condUpdate, keyMatch_applyUpdate, hr, ih]

theorem upsert_filter_length (now : Int) (db : List AttendanceRecord) (n : NewRow)
    (hu : uniqueKeys db) :
    ((upsert now db n).filter (fun r => keyMatch r n)).length = 1 := by
  by_cases hany : db.any (fun r => keyMatch r n) = true
  · rw [upsert, if_pos hany, filter_condUpdate_map, List.length_map]
    exact filter_keyMatch_length_one hu hany
  · have hnil : db.filter (fun r => keyMatch r n) = [] := by
      apply List.filter_eq_nil_iff.mpr
      intro b hb hbk
      exact hany (List.any_eq_true.mpr ⟨b, hb, hbk⟩)
    rw [upsert, if_neg hany, List.filter_append, hnil]
    simp [keyMatch_fresh]

theorem upsert_filter_values (now : Int) (db : List AttendanceRecord) (n : NewRow) :
    ∀ x ∈ (upsert now db n).filter (fun r => keyMatch r n),
      x.student_name = n.student_name ∧ x.days_present = n.days_present
      ∧ x.total_amount = n.total_amount := by
  intro x hx
  by_cases hany : db.any (fun r => keyMatch r n) = true
  · rw [upsert, if_pos hany, filter_condUpdate_map] at hx
    obtain ⟨r, _, heq⟩ := List.mem_map.mp hx
    subst heq
    exact ⟨rfl, rfl, rfl⟩
  · rw [upsert, if_neg hany, List.filter_append] at hx
    rcases List.mem_append.mp hx with hl | hr
    · exact absurd (List.any_eq_true.mpr
        ⟨x, (List.mem_filter.mp hl).1, (List.mem_filter.mp hl).2⟩) hany
    · have : x = freshRecord now n := by
        simpa [keyMatch_fresh] using hr
      subst this
      exact ⟨rfl, rfl, rfl⟩

/-- C1: starting from any table satisfying the unique-key invariant,
two uploads writing the same (roll_no, month, year, mess) tuple (the
upload statement binds no mess, so equality of the two written tuples
is equality of the two natural keys) leave exactly one record for that
tuple, carrying the second upload's student_name, days_present and
total_amount, and the table still has no two rows agreeing on
(roll_no, month, year, mess). -/
theorem upload_upsert_unique (now1 now2 : Int) (db : List AttendanceRecord)
    (n1 n2 : NewRow) (hu : uniqueKeys db) (hk : newKey n1 = newKey n2) :
    ((upsert now2 (upsert now1 db n1) n2).filter (fun r => keyMatch r n1)).length = 1
    ∧ (∀ x ∈ (upsert now2 (upsert now1 db n1) n2).filter (fun r => keyMatch r n1),
        x.student_name = n2.student_name ∧ x.days_present = n2.days_present
        ∧ x.total_amount = n2.total_amount)
    ∧ List.Pairwise (fun a b => ¬(recKey a = recKey b ∧ a.mess = b.mess))
        (upsert now2 (upsert now1 db n1) n2) := by
  have hkm : ∀ r, keyMatch r n1 = keyMatch r n2 := by
    intro r
    have h1 : (keyMatch r n1 = true) ↔ (keyMatch r n2 = true) := by
      rw [keyMatch_iff, keyMatch_iff, hk]
    cases h2 : keyMatch r n2 <;> cases h3 : keyMatch r n1 <;> simp_all
  have hfe : (upsert now2 (upsert now1 db n1) n2).filter (fun r => keyMatch r n1)
      = (upsert now2 (upsert now1 db n1) n2).filter (fun r => keyMatch r n2) :=
    List.filter_congr (fun x _ => hkm x)
  have hu1 := upsert_uniqueKeys now1 db n1 hu
  have hu2 := upsert_uniqueKeys now2 (upsert now1 db n1) n2 hu1
  refine ⟨?_, ?_, hu2.imp (fun h hc => h hc.1)⟩
  · rw [hfe]
    exact upsert_filter_length now2 _ n2 hu1
  · intro x hx
    rw [hfe] at hx
    exact upsert_filter_values now2 _ n2 x hx

/-- C1 witness: uploading (R9, MAY, 2023) twice into an empty table
leaves exactly one record for that key. -/
theorem upload_upsert_unique_witness :
    ((upsert 1 (upsert 0 [] c1n1) c1n2).filter (fun r => keyMatch r c1n1)).length = 1 :=
  (upload_upsert_unique 0 1 [] c1n1 c1n2 List.Pairwise.nil rfl).1

theorem findHeaderRowIndex_none {grid : List (List String)}
    (hall : ∀ r ∈ grid, isHeaderRow r = false) :
    findHeaderRowIndex grid = none := by
  induction grid with
  | nil => rfl
  | cons row rest ih =>
    rw [findHeaderRowIndex, if_neg (by simp [hall row (by simp)]),
      ih (fun r hr => hall r (by simp [hr]))]
    rfl

theorem findHeaderRowIndex_first (pre : List (List String)) (row : List String)
    (post : List (List String)) (hpre : ∀ r ∈ pre, isHeaderRow r = false)
    (hrow : isHeaderRow row = true) :
    findHeaderRowIndex (pre ++ row :: post) = some pre.length := by
  induction pre with
  | nil => simp [findHeaderRowIndex, hrow]
  | cons p pre' ih =>
    rw [List.cons_append, findHeaderRowIndex,
      if_neg (by simp [hpre p (by simp)]),
      ih (fun r hr => hpre r (by simp [hr]))]
    rfl

/-- C5: the header row is the first (lowest-index) row containing both
"student name" and "roll no." cells or both "name" and "enrollment no"
cells (trimmed, case-insensitive); and on every grid accepted by the
tabular reader (at least 2 rows) in which no row qualifies, the
pipeline fails with the header-not-found error and persists nothing. -/
theorem header_locator_spec (grid : List (List String))
    (db : List AttendanceRecord) (now y : Int) :
    (∀ pre row post, grid = pre ++ row :: post →
       (∀ r ∈ pre, isHeaderRow r = false) → isHeaderRow row = true →
       findHeaderRowIndex grid = some pre.length)
    ∧ ((∀ r ∈ grid, isHeaderRow r = false) → 2 ≤ grid.length →
       processSheet grid y = .error .headerNotFound
       ∧ persistUpload now db grid y = db) := by
  constructor
  · intro pre row post hsplit hpre hrow
    subst hsplit
    exact findHeaderRowIndex_first pre row post hpre hrow
  · intro hall h2
    have hnone := findHeaderRowIndex_none hall
    have hlt : ¬ grid.length < 2 := Nat.not_lt.mpr h2
    have hps : processSheet grid y = .error .headerNotFound := by
      simp [processSheet, hnone, hlt]
    exact ⟨hps, by simp [persistUpload, hps]⟩

/-- C5 witness: a concrete header-free 2-row grid errors out and
persists nothing, and a concrete grid with the header in row 1 locates
index 1. -/
theorem header_locator_witness :
    processSheet g5 2025 = .error .headerNotFound
    ∧ persistUpload 0 [] g5 2025 = []
    ∧ findHeaderRowIndex g5h = some 1 := by
  refine ⟨((header_locator_spec g5 [] 0 2025).2 (by decide) (by decide)).1,
    ((header_locator_spec g5 [] 0 2025).2 (by decide) (by decide)).2,
    (header_locator_spec g5h [] 0 2025).1 [["x"]] ["Name", "Enrollment No"] []
      rfl (by decide) (by decide)⟩

theorem findTotalAmountCol_first (pre : List (List String)) (row : List String)
    (post : List (List String)) (j : Nat)
    (hpre : ∀ r ∈ pre, r.findIdx? isTotalAmountCellExact = none)
    (hrow : row.findIdx? isTotalAmountCellExact = some j) :
    findTotalAmountCol (pre ++ row :: post) = some j := by
  induction pre with
  | nil => simp [findTotalAmountCol, hrow]
  | cons p pre' ih =>
    rw [List.cons_append, findTotalAmountCol, hpre p (by simp)]
    exact ih (fun r hr => hpre r (by simp [hr]))

theorem findTotalAmountCol_isSome {grid : List (List String)}
    (h : ∃ row ∈ grid, ∃ c ∈ row, isTotalAmountCellExact c = true) :
    (findTotalAmountCol grid).isSome = true := by
  induction grid with
  | nil => simp at h
  | cons row rest ih =>
    rw [findTotalAmountCol]
    cases hr : row.findIdx? isTotalAmountCellExact with
    | some j => rfl
    | none =>
      obtain ⟨r, hrm, c, hcm, hc⟩ := h
      rcases List.mem_cons.mp hrm with he | hm
      · subst he
        exact absurd hc (by simp [List.findIdx?_eq_none_iff.mp hr c hcm])
      · exact ih ⟨r, hm, c, hcm, hc⟩

/-- C2 (amended): the canonical locator resolves the total-amount
column as the first cell anywhere in the grid, row-major, whose
trimmed lowercased text is exactly "total amount"; in particular every
grid containing such an exact cell — wherever it sits, also outside
the header rows — resolves the column. -/
theorem totalAmount_exact_grid_scan (grid : List (List String)) :
    (∀ pre row post j, grid = pre ++ row :: post →
       (∀ r ∈ pre, r.findIdx? isTotalAmountCellExact = none) →
       row.findIdx? isTotalAmountCellExact = some j →
       findTotalAmountCol grid = some j)
    ∧ ((∃ row ∈ grid, ∃ c ∈ row, isTotalAmountCellExact c = true) →
       (findTotalAmountCol grid).isSome = true) := by
  constructor
  · intro pre row post j hsplit hpre hrow
    subst hsplit
    exact findTotalAmountCol_first pre row post j hpre hrow
  · exact findTotalAmountCol_isSome

/-- C2 witness: a grid whose exact "Total Amount" cell sits only in a
data row still resolves the column. -/
theorem totalAmount_exact_grid_scan_witness :
    (findTotalAmountCol c2wgrid).isSome = true :=
  (totalAmount_exact_grid_scan c2wgrid).2 (by decide)

/-- C2 counterexample: the cell "Total Amounts" contains the substring
"total amount" after trimming and lowercasing, yet the canonical
whole-grid locator — which compares for exact equality — resolves no
column on a grid whose only candidate is that cell, and the pipeline
answers the missing-column error, contradicting the claimed
substring-containment resolution. -/
theorem totalAmount_substring_cex :
    strContains (normCell "Total Amounts") "total amount" = true
    ∧ findTotalAmountCol c2grid = none
    ∧ processSheet c2grid 2025 = .error .missingColumn := by
  refine ⟨by decide, by decide, ?_⟩
  simp +decide [processSheet, extractMeta, scanRowsMeta, scanCellsMeta, monthStep, yearStep,
    firstNonEmptyTrim, firstParsedInt, isMonthLabel, isYearLabel,
    findHeaderRowIndex, isHeaderRow, isNameHeaderCell, isRollHeaderCell,
    isTotalAmountCellExact, normCell, findTotalAmountCol, strTrim, strLower,
    c2grid]

/-- C7 (amended): a data row passing the length and non-empty name/roll
checks is always recorded — its days_present is the `parseInt` of the
present cell and its total_amount the `parseFloat` of the total cell
(each carrying the cell's sign), and whenever the respective cell fails
to parse the stored value defaults to 0; the row is never rejected for
a parse failure. -/
theorem row_defaults_spec (nc rc pc tc : Nat) (row : List String)
    (hlen : max (max nc rc) (max pc tc) < row.length)
    (hname : ¬ strTrim (row.getD nc "") = "")
    (hroll : ¬ strTrim (row.getD rc "") = "") :
    normalizeRow nc rc pc tc row =
      some { roll_no := strUpper (strTrim (row.getD rc "")),
             student_name := strUpper (strTrim (row.getD nc "")),
             days_present := (jsParseInt (jsOr (row.getD pc "") "0")).getD 0,
             total_amount := (jsParseFloat (jsOr (row.getD tc "") "0")).getD 0 }
    ∧ (jsParseInt (jsOr (row.getD pc "") "0") = none →
       (normalizeRow nc rc pc tc row).map (fun pr => pr.days_present) = some 0)
    ∧ (jsParseFloat (jsOr (row.getD tc "") "0") = none →
       (normalizeRow nc rc pc tc row).map (fun pr => pr.total_amount) = some 0) := by
  have hle : ¬ row.length ≤ max (max nc rc) (max pc tc) := Nat.not_le.mpr hlen
  have hname' : ¬ strTrim (row[nc]?.getD "") = "" := by
    simpa [List.getD] using hname
  have hroll' : ¬ strTrim (row[rc]?.getD "") = "" := by
    simpa [List.getD] using hroll
  have hmain : normalizeRow nc rc pc tc row =
      some { roll_no := strUpper (strTrim (row.getD rc "")),
             student_name := strUpper (strTrim (row.getD nc "")),
             days_present := (jsParseInt (jsOr (row.getD pc "") "0")).getD 0,
             total_amount := (jsParseFloat (jsOr (row.getD tc "") "0")).getD 0 } := by
    simp [normalizeRow, List.getD, hle, hname', hroll']
  refine ⟨hmain, ?_, ?_⟩ <;> intro h <;> rw [hmain] <;>
    simp only [List.getD, List.get?_eq_getElem?] at h ⊢ <;> simp [h]

/-- C7 witness: a row whose present and total cells are unparseable is
still recorded, with both values defaulted to 0. -/
theorem row_defaults_witness :
    (normalizeRow 0 1 2 3 ["A", "B", "xx", "yy"]).map (fun pr => pr.days_present)
      = some 0
    ∧ (normalizeRow 0 1 2 3 ["A", "B", "xx", "yy"]).map (fun pr => pr.total_amount)
      = some 0 :=
  ⟨(row_defaults_spec 0 1 2 3 ["A", "B", "xx", "yy"]
      (by decide) (by decide) (by decide)).2.1 (by decide),
   (row_defaults_spec 0 1 2 3 ["A", "B", "xx", "yy"]
      (by decide) (by decide) (by decide)).2.2 (by decide)⟩

/-- C7 counterexample: a sheet holding "-5" under the "P" column runs
through the whole pipeline and persists a record whose days_present is
the negative integer -5, refuting the claimed non-negativity of every
persisted record. -/
theorem negative_days_cex :
    (persistUpload 0 [] g7 2025).map (fun r => r.days_present) = [-5]
    ∧ ¬ (0 : Int) ≤ -5 := by
  refine ⟨?_, by decide⟩
  simp +decide [persistUpload, processSheet, extractMeta, scanRowsMeta, scanCellsMeta, monthStep, yearStep,
    firstNonEmptyTrim, firstParsedInt, isMonthLabel, isYearLabel, findHeaderRowIndex,
    isHeaderRow, isNameHeaderCell, isRollHeaderCell, isTotalAmountCellExact, normCell,
    normalizeRow, jsOr, jsParseInt, jsParseFloat, parseFloatBody, parseDigitsSigned,
    digitsToNat, findTotalAmountCol, strTrim, strLower, strUpper, upsert, keyMatch,
    freshRecord, applyUpdate, g7]

theorem yearStep_month (c : String) (rest : List String) (st : MetaState) :
    (yearStep c rest st).month = st.month := by
  unfold yearStep
  rcases h : firstParsedInt rest with _ | n <;> split <;> simp [h]

theorem yearStep_foundMonth (c : String) (rest : List String) (st : MetaState) :
    (yearStep c rest st).foundMonth = st.foundMonth := by
  unfold yearStep
  rcases h : firstParsedInt rest with _ | n <;> split <;> simp [h]

theorem monthStep_year (c : String) (rest : List String) (st : MetaState) :
    (monthStep c rest st).year = st.year := by
  unfold monthStep
  rcases h : firstNonEmptyTrim rest with _ | v <;> split <;> simp [h]

theorem monthStep_foundYear (c : String) (rest : List String) (st : MetaState) :
    (monthStep c rest st).foundYear = st.foundYear := by
  unfold monthStep
  rcases h : firstNonEmptyTrim rest with _ | v <;> split <;> simp [h]

theorem scanCellsMeta_month (row : List String) : ∀ (st : MetaState),
    (scanCellsMeta row st).month =
      (if st.foundMonth then st.month else (rowMonthHit row).getD st.month)
    ∧ (scanCellsMeta row st).foundMonth
      = (st.foundMonth || (rowMonthHit row).isSome) := by
  induction row with
  | nil =>
    intro st
    cases h : st.foundMonth <;> simp [scanCellsMeta, rowMonthHit, h]
  | cons c rest ih =>
    intro st
    cases hfm : st.foundMonth with
    | true =>
      cases hfy : st.foundYear with
      | true =>
        rw [scanCellsMeta, if_pos (by simp [hfm, hfy])]
        simp [hfm]
      | false =>
        rw [scanCellsMeta, if_neg (by simp [hfy])]
        have hms : monthStep c rest st = st := by
          unfold monthStep
          simp [hfm]
        rw [hms]
        obtain ⟨ihm, ihf⟩ := ih (yearStep c rest st)
        constructor <;>
          simp [ihm, ihf, yearStep_month, yearStep_foundMonth, hfm]
    | false =>
      rw [scanCellsMeta, if_neg (by simp [hfm])]
      cases hlab : isMonthLabel c with
      | false =>
        have hms : monthStep c rest st = st := by
          unfold monthStep
          simp [hlab]
        rw [hms]
        obtain ⟨ihm, ihf⟩ := ih (yearStep c rest st)
        have hrh : rowMonthHit (c :: rest) = rowMonthHit rest := by
          rw [rowMonthHit]
          simp [hlab]
        constructor <;>
          simp [ihm, ihf, yearStep_month, yearStep_foundMonth, hfm, hrh]
      | true =>
        cases hfne : firstNonEmptyTrim rest with
        | some v =>
          have hms : monthStep c rest st
              = { st with month := v, foundMonth := true } := by
            unfold monthStep
            simp [hlab, hfm, hfne]
          rw [hms]
          obtain ⟨ihm, ihf⟩ :=
            ih (yearStep c rest { st with month := v, foundMonth := true })
          have hrh : rowMonthHit (c :: rest) = some v := by
            rw [rowMonthHit]
            simp [hlab, hfne]
          constructor <;>
            simp [ihm, ihf, yearStep_month, yearStep_foundMonth, hfm, hrh]
        | none =>
          have hms : monthStep c rest st = st := by
            unfold monthStep
            simp [hlab, hfm, hfne]
          rw [hms]
          obtain ⟨ihm, ihf⟩ := ih (yearStep c rest st)
          have hrh : rowMonthHit (c :: rest) = rowMonthHit rest := by
            rw [rowMonthHit]
            simp [hlab, hfne]
          constructor <;>
            simp [ihm, ihf, yearStep_month, yearStep_foundMonth, hfm, hrh]

theorem scanCellsMeta_year (row : List String) : ∀ (st : MetaState),
    (scanCellsMeta row st).year =
      (if st.foundYear then st.year else (rowYearHit row).getD st.year)
    ∧ (scanCellsMeta row st).foundYear
      = (st.foundYear || (rowYearHit row).isSome) := by
  induction row with
  | nil =>
    intro st
    cases h : st.foundYear <;> simp [scanCellsMeta, rowYearHit, h]
  | cons c rest ih =>
    intro st
    cases hfy : st.foundYear with
    | true =>
      cases hfm : st.foundMonth with
      | true =>
        rw [scanCellsMeta, if_pos (by simp [hfm, hfy])]
        simp [hfy]
      | false =>
        rw [scanCellsMeta, if_neg (by simp [hfm])]
        have hys : yearStep c rest (monthStep c rest st) = monthStep c rest st := by
          unfold yearStep
          simp [monthStep_foundYear, hfy]
        rw [hys]
        obtain ⟨ihm, ihf⟩ := ih (monthStep c rest st)
        constructor <;>
          simp [ihm, ihf, monthStep_year, monthStep_foundYear, hfy]
    | false =>
      rw [scanCellsMeta, if_neg (by simp [hfy])]
      cases hlab : isYearLabel c with
      | false =>
        have hys : yearStep c rest (monthStep c rest st) = monthStep c rest st := by
          unfold yearStep
          simp [hlab]
        rw [hys]
        obtain ⟨ihm, ihf⟩ := ih (monthStep c rest st)
        have hrh : rowYearHit (c :: rest) = rowYearHit rest := by
          rw [rowYearHit]
          simp [hlab]
        constructor <;>
          simp [ihm, ihf, monthStep_year, monthStep_foundYear, hfy, hrh]
      | true =>
        cases hfpi : firstParsedInt rest with
        | some n =>
          have hys : yearStep c rest (monthStep c rest st)
              = { monthStep c rest st with year := n, foundYear := true } := by
            unfold yearStep
            simp [hlab, monthStep_foundYear, hfy, hfpi]
          rw [hys]
          obtain ⟨ihm, ihf⟩ :=
            ih { monthStep c rest st with year := n, foundYear := true }
          have hrh : rowYearHit (c :: rest) = some n := by
            rw [rowYearHit]
            simp [hlab, hfpi]
          constructor <;>
            simp [ihm, ihf, monthStep_year, monthStep_foundYear, hfy, hrh]
        | none =>
          have hys : yearStep c rest (monthStep c rest st) = monthStep c rest st := by
            unfold yearStep
            simp [hlab, monthStep_foundYear, hfy, hfpi]
          rw [hys]
          obtain ⟨ihm, ihf⟩ := ih (monthStep c rest st)
          have hrh : rowYearHit (c :: rest) = rowYearHit rest := by
            rw [rowYearHit]
            simp [hlab, hfpi]
          constructor <;>
            simp [ihm, ihf, monthStep_year, monthStep_foundYear, hfy, hrh]

theorem scanRowsMeta_month (rows : List (List String)) : ∀ (st : MetaState),
    (scanRowsMeta rows st).month =
      (if st.foundMonth then st.month else (gridMonthHit rows).getD st.month)
    ∧ (scanRowsMeta rows st).foundMonth
      = (st.foundMonth || (gridMonthHit rows).isSome) := by
  induction rows with
  | nil =>
    intro st
    cases h : st.foundMonth <;> simp [scanRowsMeta, gridMonthHit, h]
  | cons row rest ih =>
    intro st
    cases hfm : st.foundMonth with
    | true =>
      cases hfy : st.foundYear with
      | true =>
        rw [scanRowsMeta, if_pos (by simp [hfm, hfy])]
        simp [hfm]
      | false =>
        rw [scanRowsMeta, if_neg (by simp [hfy])]
        obtain ⟨cm, cf⟩ := scanCellsMeta_month row st
        obtain ⟨ihm, ihf⟩ := ih (scanCellsMeta row st)
        constructor <;> simp [ihm, ihf, cm, cf, hfm]
    | false =>
      rw [scanRowsMeta, if_neg (by simp [hfm])]
      obtain ⟨cm, cf⟩ := scanCellsMeta_month row st
      obtain ⟨ihm, ihf⟩ := ih (scanCellsMeta row st)
      cases hhit : rowMonthHit row with
      | some v =>
        have hg : gridMonthHit (row :: rest) = some v := by
          rw [gridMonthHit, hhit]
        constructor <;> simp [ihm, ihf, cm, cf, hfm, hhit, hg]
      | none =>
        have hg : gridMonthHit (row :: rest) = gridMonthHit rest := by
          rw [gridMonthHit, hhit]
        constructor <;> simp [ihm, ihf, cm, cf, hfm, hhit, hg]

theorem scanRowsMeta_year (rows : List (List String)) : ∀ (st : MetaState),
    (scanRowsMeta rows st).year =
      (if st.foundYear then st.year else (gridYearHit rows).getD st.year)
    ∧ (scanRowsMeta rows st).foundYear
      = (st.foundYear || (gridYearHit rows).isSome) := by
  induction rows with
  | nil =>
    intro st
    cases h : st.foundYear <;> simp [scanRowsMeta, gridYearHit, h]
  | cons row rest ih =>
    intro st
    cases hfy : st.foundYear with
    | true =>
      cases hfm : st.foundMonth with
      | true =>
        rw [scanRowsMeta, if_pos (by simp [hfm, hfy])]
        simp [hfy]
      | false =>
        rw [scanRowsMeta, if_neg (by simp [hfm])]
        obtain ⟨cm, cf⟩ := scanCellsMeta_year row st
        obtain ⟨ihm, ihf⟩ := ih (scanCellsMeta row st)
        constructor <;> simp [ihm, ihf, cm, cf, hfy]
    | false =>
      rw [scanRowsMeta, if_neg (by simp [hfy])]
      obtain ⟨cm, cf⟩ := scanCellsMeta_year row st
      obtain ⟨ihm, ihf⟩ := ih (scanCellsMeta row st)
      cases hhit : rowYearHit row with
      | some n =>
        have hg : gridYearHit (row :: rest) = some n := by
          rw [gridYearHit, hhit]
        constructor <;> simp [ihm, ihf, cm, cf, hfy, hhit, hg]
      | none =>
        have hg : gridYearHit (row :: rest) = gridYearHit rest := by
          rw [gridYearHit, hhit]
        constructor <;> simp [ihm, ihf, cm, cf, hfy, hhit, hg]

theorem gridMonthHit_first (pre : List (List String)) (row : List String)
    (post : List (List String)) (v : String)
    (hpre : ∀ r ∈ pre, rowMonthHit r = none) (hrow : rowMonthHit row = some v) :
    gridMonthHit (pre ++ row :: post) = some v := by
  induction pre with
  | nil =>
    rw [List.nil_append, gridMonthHit, hrow]
  | cons p pre' ih =>
    rw [List.cons_append, gridMonthHit, hpre p (by simp)]
    exact ih (fun r hr => hpre r (by simp [hr]))

theorem rowMonthHit_of_no_label {row : List String}
    (h : ∀ c ∈ row, isMonthLabel c = false) : rowMonthHit row = none := by
  induction row with
  | nil => rfl
  | cons c rest ih =>
    rw [rowMonthHit]
    simp only [h c (by simp)]
    exact ih (fun x hx => h x (by simp [hx]))

theorem gridMonthHit_none {rows : List (List String)}
    (h : ∀ r ∈ rows, rowMonthHit r = none) : gridMonthHit rows = none := by
  induction rows with
  | nil => rfl
  | cons row rest ih =>
    rw [gridMonthHit, h row (by simp)]
    exact ih (fun r hr => h r (by simp [hr]))

theorem gridYearHit_none {rows : List (List String)}
    (h : ∀ r ∈ rows, rowYearHit r = none) : gridYearHit rows = none := by
  induction rows with
  | nil => rfl
  | cons row rest ih =>
    rw [gridYearHit, h row (by simp)]
    exact ih (fun r hr => h r (by simp [hr]))

/-- C4: metadata extraction scans at most the first 100 rows (the
result on a grid equals the result on its 100-row prefix); within that
prefix the month is the trimmed first non-empty right-neighbor of the
first month label possessing one, and once found it is never
overwritten (earlier rows with a month hit take precedence); a prefix
with no month label leaves the literal "Unknown"; a prefix in which no
year label is followed in-row by an integer-parsing cell leaves the
current calendar year. -/
theorem metadata_extraction (grid : List (List String)) (y : Int) :
    extractMeta grid y = extractMeta (grid.take 100) y
    ∧ (∀ pre row post v, grid.take 100 = pre ++ row :: post →
        (∀ r ∈ pre, rowMonthHit r = none) → rowMonthHit row = some v →
        (extractMeta grid y).1 = v)
    ∧ ((∀ r ∈ grid.take 100, ∀ c ∈ r, isMonthLabel c = false) →
        (extractMeta grid y).1 = "Unknown")
    ∧ ((∀ r ∈ grid.take 100, rowYearHit r = none) →
        (extractMeta grid y).2 = y) := by
  refine ⟨?_, ?_, ?_, ?_⟩
  · simp [extractMeta, List.take_take]
  · intro pre row post v hsplit hpre hrow
    have hg : gridMonthHit (grid.take 100) = some v := by
      rw [hsplit]
      exact gridMonthHit_first pre row post v hpre hrow
    have hm := (scanRowsMeta_month (grid.take 100)
      { month := "Unknown", year := y, foundMonth := false, foundYear := false }).1
    simp [extractMeta, hm, hg]
  · intro hall
    have hg : gridMonthHit (grid.take 100) = none :=
      gridMonthHit_none (fun r hr => rowMonthHit_of_no_label (hall r hr))
    have hm := (scanRowsMeta_month (grid.take 100)
      { month := "Unknown", year := y, foundMonth := false, foundYear := false }).1
    simp [extractMeta, hm, hg]
  · intro hall
    have hg : gridYearHit (grid.take 100) = none := gridYearHit_none hall
    have hy := (scanRowsMeta_year (grid.take 100)
      { month := "Unknown", year := y, foundMonth := false, foundYear := false }).1
    simp [extractMeta, hy, hg]

/-- C4 witness: the month is read across the empty cell as "January"
(trimmed), the year label with a non-parsing neighbor leaves the
current year 2025, and a label-free grid leaves "Unknown". -/
theorem metadata_extraction_witness :
    (extractMeta g4a 2025).1 = "January"
    ∧ (extractMeta g4a 2025).2 = 2025
    ∧ (extractMeta g4b 2025).1 = "Unknown" :=
  ⟨(metadata_extraction g4a 2025).2.1 [] ["Month", "", " January "] [["Year", "abc"]]
      "January" rfl (by simp) (by decide),
   (metadata_extraction g4a 2025).2.2.2 (by decide),
   (metadata_extraction g4b 2025).2.2.1 (by decide)⟩

theorem qOrder_total : ∀ a b : AttendanceRecord, qOrder a b ∨ qOrder b a := by
  intro a b
  rcases lt_trichotomy a.year b.year with h | h | h
  · exact Or.inr (Or.inl h)
  · rcases lt_trichotomy a.month b.month with hm | hm | hm
    · exact Or.inr (Or.inr ⟨h.symm, Or.inl hm⟩)
    · exact Or.inl (Or.inr ⟨h, Or.inr hm.symm⟩)
    · exact Or.inl (Or.inr ⟨h, Or.inl hm⟩)
  · exact Or.inl (Or.inl h)

theorem qOrder_trans : ∀ a b c : AttendanceRecord,
    qOrder a b → qOrder b c → qOrder a c := by
  intro a b c hab hbc
  rcases hab with h1 | ⟨e1, m1⟩
  · rcases hbc with h2 | ⟨e2, m2⟩
    · exact Or.inl (h2.trans h1)
    · exact Or.inl (e2 ▸ h1)
  · rcases hbc with h2 | ⟨e2, m2⟩
    · exact Or.inl (by rw [e1]; exact h2)
    · refine Or.inr ⟨e1.trans e2, ?_⟩
      rcases m1 with m1 | m1 <;> rcases m2 with m2 | m2
      · exact Or.inl (m2.trans m1)
      · exact Or.inl (by rw [m2]; exact m1)
      · exact Or.inl (by rw [← m1]; exact m2)
      · exact Or.inr (m2.trans m1)

theorem queryAttendance_ok_shape {db : List AttendanceRecord}
    {r? y? m? : Option String} {yr : Option Int} {resp : QueryResponse}
    (hyp : queryYearParsed y? = .ok yr)
    (hq : queryAttendance db r? y? m? = .ok resp) :
    ∃ r0 tl,
      sortRecords (db.filter (recordMatches (rollFilter r?) yr (messFilter m?)))
        = r0 :: tl
      ∧ resp = { roll_no := rollFilter r?,
                 student_name := r0.student_name,
                 total_days_present := ((r0 :: tl).map (fun r => r.days_present)).sum,
                 total_amount := ((r0 :: tl).map (fun r => r.total_amount)).sum,
                 months_data := r0 :: tl } := by
  by_cases hin : (!(jsTruthy r?) && !(jsTruthy y?)) = true
  · rw [queryAttendance, if_pos hin] at hq
    exact absurd hq (by simp)
  · rw [queryAttendance, if_neg hin, hyp] at hq
    dsimp only at hq
    cases hs : sortRecords
        (db.filter (recordMatches (rollFilter r?) yr (messFilter m?))) with
    | nil =>
      rw [hs] at hq
      exact absurd hq (by simp)
    | cons r0 tl =>
      rw [hs] at hq
      exact ⟨r0, tl, rfl, (Except.ok.inj hq).symm⟩

/-- C8: the query requires a roll number or a year (else InputMissing);
on success the reported totals are the sums of days_present and
total_amount over exactly the matched records, returned alongside (the
response rows are a permutation of the filtered table); a well-formed
request matching zero records fails with NotFound. -/
theorem query_aggregation (db : List AttendanceRecord) (r? y? m? : Option String) :
    (jsTruthy r? = false → jsTruthy y? = false →
      queryAttendance db r? y? m? = .error .inputMissing)
    ∧ (∀ yr resp, queryYearParsed y? = .ok yr →
        queryAttendance db r? y? m? = .ok resp →
        resp.total_days_present =
          ((db.filter (recordMatches (rollFilter r?) yr (messFilter m?))).map
            (fun r => r.days_present)).sum
        ∧ resp.total_amount =
          ((db.filter (recordMatches (rollFilter r?) yr (messFilter m?))).map
            (fun r => r.total_amount)).sum
        ∧ resp.months_data.Perm
            (db.filter (recordMatches (rollFilter r?) yr (messFilter m?))))
    ∧ (∀ yr, (jsTruthy r? || jsTruthy y?) = true →
        queryYearParsed y? = .ok yr →
        db.filter (recordMatches (rollFilter r?) yr (messFilter m?)) = [] →
        queryAttendance db r? y? m? = .error .notFound) := by
  refine ⟨?_, ?_, ?_⟩
  · intro h1 h2
    simp [queryAttendance, h1, h2]
  · intro yr resp hyp hq
    obtain ⟨r0, tl, hs, hre⟩ := queryAttendance_ok_shape hyp hq
    have hperm : (r0 :: tl).Perm
        (db.filter (recordMatches (rollFilter r?) yr (messFilter m?))) := by
      rw [← hs]
      exact List.perm_insertionSort qOrder _
    subst hre
    exact ⟨(List.Perm.map (fun r : AttendanceRecord => r.days_present) hperm).sum_eq,
      (List.Perm.map (fun r : AttendanceRecord => r.total_amount) hperm).sum_eq, hperm⟩
  · intro yr hpresent hyp hnil
    have hin : (!(jsTruthy r?) && !(jsTruthy y?)) ≠ true := by
      rcases (by simpa using hpresent : jsTruthy r? = true ∨ jsTruthy y? = true)
        with h | h <;> simp [h]
    rw [queryAttendance, if_neg hin, hyp]
    dsimp only
    rw [hnil]
    rfl

/-- C8 witness: the year-only query over two students reports totals
equal to the sums over exactly the two matched records, which are
returned alongside. -/
theorem query_aggregation_witness :
    qresp0.total_days_present =
      (([qrecA, qrecB].filter
        (recordMatches (rollFilter none) (some 2024) (messFilter none))).map
          (fun r => r.days_present)).sum
    ∧ qresp0.months_data.Perm
        ([qrecA, qrecB].filter
          (recordMatches (rollFilter none) (some 2024) (messFilter none))) := by
  have hq : queryAttendance [qrecA, qrecB] none (some "2024") none = .ok qresp0 := by
    simp +decide [queryAttendance, queryYearParsed, jsTruthy, jsParseInt,
      parseDigitsSigned, digitsToNat, rollFilter, messFilter, recordMatches,
      sortRecords, qOrder, qrecA, qrecB, qresp0]
    norm_num
  have h := (query_aggregation [qrecA, qrecB] none (some "2024") none).2.1
    (some 2024) qresp0 rfl hq
  exact ⟨h.1, h.2.2⟩

/-- C10: whenever the query succeeds, the reported student_name is
exactly the student_name of the first record of the result set under
the (year descending, month text descending) ordering — the rows are
returned sorted that way and are a permutation of the matched set —
even when the matched records belong to several distinct students. -/
theorem query_first_record_name (db : List AttendanceRecord)
    (r? y? m? : Option String) :
    ∀ yr resp, queryYearParsed y? = .ok yr →
      queryAttendance db r? y? m? = .ok resp →
      resp.months_data.head?.map (fun r => r.student_name) = some resp.student_name
      ∧ List.Sorted qOrder resp.months_data
      ∧ resp.months_data.Perm
          (db.filter (recordMatches (rollFilter r?) yr (messFilter m?))) := by
  intro yr resp hyp hq
  obtain ⟨r0, tl, hs, hre⟩ := queryAttendance_ok_shape hyp hq
  have hperm : (r0 :: tl).Perm
      (db.filter (recordMatches (rollFilter r?) yr (messFilter m?))) := by
    rw [← hs]
    exact List.perm_insertionSort qOrder _
  have hsorted : List.Sorted qOrder (r0 :: tl) := by
    rw [← hs]
    haveI : IsTotal AttendanceRecord qOrder := ⟨qOrder_total⟩
    haveI : IsTrans AttendanceRecord qOrder := ⟨qOrder_trans⟩
    exact List.sorted_insertionSort qOrder _
  subst hre
  exact ⟨rfl, hsorted, hperm⟩

/-- C10 witness: the year-only query matching two distinct students
reports the name of the first record under the ordering (BOB, whose
March row sorts before ALICE's January row) while the totals of
`qresp0` are summed across both students' records. -/
theorem query_first_record_name_witness :
    qresp0.months_data.head?.map (fun r => r.student_name)
      = some qresp0.student_name
    ∧ qresp0.student_name = "BOB"
    ∧ qrecA.student_name ≠ qrecB.student_name := by
  have hq : queryAttendance [qrecA, qrecB] none (some "2024") none = .ok qresp0 := by
    simp +decide [queryAttendance, queryYearParsed, jsTruthy, jsParseInt,
      parseDigitsSigned, digitsToNat, rollFilter, messFilter, recordMatches,
      sortRecords, qOrder, qrecA, qrecB, qresp0]
    norm_num
  exact ⟨(query_first_record_name [qrecA, qrecB] none (some "2024") none
    (some 2024) qresp0 rfl hq).1, by decide, by decide⟩

/-- C6: a stored row's roll_no and student_name are exactly the
trimmed-then-uppercased source cells (whatever their casing and
whitespace); every record a successful pipeline run emits arises from
`normalizeRow` on some grid row; and the query uppercases the supplied
roll number before matching, so every returned record's roll_no equals
the uppercased input. -/
theorem stored_normalization :
    (∀ nc rc pc tc (row : List String) pr,
      normalizeRow nc rc pc tc row = some pr →
      pr.roll_no = strUpper (strTrim (row.getD rc ""))
      ∧ pr.student_name = strUpper (strTrim (row.getD nc "")))
    ∧ (∀ grid cy mo yr recs, processSheet grid cy = .ok (mo, yr, recs) →
        ∀ pr ∈ recs, ∃ r ∈ grid, ∃ nc rc pc tc,
          normalizeRow nc rc pc tc r = some pr)
    ∧ (∀ (db : List AttendanceRecord) (s : String) (y m : Option String) resp,
        s ≠ "" → queryAttendance db (some s) y m = .ok resp →
        ∀ rec ∈ resp.months_data, rec.roll_no = strUpper s) := by
  refine ⟨?_, ?_, ?_⟩
  · intro nc rc pc tc row pr h
    simp only [normalizeRow] at h
    split at h
    · exact absurd h (by simp)
    · split at h
      · exact absurd h (by simp)
      · cases h
        exact ⟨rfl, rfl⟩
  · intro grid cy mo yr recs h pr hpr
    simp only [processSheet] at h
    split at h
    · exact absurd h (by simp)
    · split at h
      · exact absurd h (by simp)
      · split at h
        all_goals try exact Except.noConfusion h
        have h' := Except.ok.inj h
        have hrecs := congrArg (fun t : String × Int × List ParsedRow => t.2.2) h'
        simp only at hrecs
        rw [← hrecs] at hpr
        obtain ⟨r, hr, heq⟩ := List.mem_filterMap.mp hpr
        exact ⟨r, List.mem_of_mem_drop hr, _, _, _, _, heq⟩
  · intro db s y m resp hs hq
    rcases hyq : queryYearParsed y with e | yr
    · by_cases hin : (!(jsTruthy (some s)) && !(jsTruthy y)) = true
      · rw [queryAttendance, if_pos hin] at hq
        exact absurd hq (by simp)
      · rw [queryAttendance, if_neg hin, hyq] at hq
        exact absurd hq (by simp)
    · obtain ⟨r0, tl, hsrt, hre⟩ := queryAttendance_ok_shape hyq hq
      have hperm : (r0 :: tl).Perm
          (db.filter (recordMatches (rollFilter (some s)) yr (messFilter m))) := by
        rw [← hsrt]
        exact List.perm_insertionSort qOrder _
      subst hre
      intro rec hrec
      have hrec' : rec ∈ db.filter
          (recordMatches (rollFilter (some s)) yr (messFilter m)) :=
        hperm.mem_iff.mp hrec
      have hmatch := (List.mem_filter.mp hrec').2
      have hroll : rollFilter (some s) = some (strUpper s) := by
        simp [rollFilter, jsTruthy, hs]
      rw [hroll] at hmatch
      simp only [recordMatches, Bool.and_eq_true, beq_iff_eq] at hmatch
      exact hmatch.1.1

/-- C6 witness: the spec's example row stores "LIT2024042" / "JANE DOE",
and the lowercase query "r1" matches the stored uppercase "R1". -/
theorem stored_normalization_witness :
    pr6.roll_no = strUpper (strTrim (row6.getD 1 ""))
    ∧ pr6.student_name = strUpper (strTrim (row6.getD 0 ""))
    ∧ qrecA.roll_no = strUpper "r1" := by
  have hn : normalizeRow 0 1 2 4 row6 = some pr6 := by
    simp +decide [normalizeRow, row6, pr6, jsOr, jsParseInt, jsParseFloat,
      parseFloatBody, parseDigitsSigned, digitsToNat, strTrim, strUpper]
  have h1 := stored_normalization.1 0 1 2 4 row6 pr6 hn
  have hq : queryAttendance [qrecA] (some "r1") none none = .ok qresp1 := by
    simp +decide [queryAttendance, queryYearParsed, jsTruthy, rollFilter,
      messFilter, recordMatches, sortRecords, qOrder, strUpper, qrecA, qresp1]
  have h3 := stored_normalization.2.2 [qrecA] "r1" none none qresp1
    (by decide) hq qrecA (List.mem_singleton.mpr rfl)
  exact ⟨h1.1, h1.2, h3⟩
